import Mathlib

/-!
# Verification of fireflycore/go-logger

A shallow embedding of the go-logger library (a thin zap-based logging
façade) together with proofs of its specification claims.

Embedded components:
* `Level`, `ParseLevel`, `levelEnabled` — the severity enum and the parts of
  the logging engine's level machinery the library relies on
  (`zapcore.Level`, `zapcore.ParseLevel`, `LevelEnabler.Enabled`).
* `levelToInt` — internal/remote.go's legacy severity → integer mapping.
* `remoteCore` with `With` and `Write` — the remote sink adapter
  (internal/remote.go).  The delivery callback is modelled by its presence
  (`handle : Bool`) plus the list of payloads handed to it; a payload is the
  JSON object (`JObj`) the callback's bytes parse to.
* `Conf` / `New` — the dispatcher (logger.go).
* `AsyncLogger.Write` and the `RelayStep` transition system — the bounded
  async relay (async.go): the producer-side write plus an interleaving model
  of enqueue/drop/consume for the FIFO-delivery property.
-/

namespace GoLogger

/-- Severity levels of the underlying engine (`zapcore.Level`):
debug(-1) < info(0) < warn(1) < error(2) < dpanic(3) < panic(4) < fatal(5). -/
inductive Level where
  | debug
  | info
  | warn
  | error
  | dpanic
  | panic
  | fatal
deriving DecidableEq, Repr

/-- The numeric value zap assigns each level, used only for ordering. -/
def Level.zapInt : Level → Int
  | .debug => -1
  | .info => 0
  | .warn => 1
  | .error => 2
  | .dpanic => 3
  | .panic => 4
  | .fatal => 5

/-- `LevelEnabler.Enabled`: a record at level `l` passes a threshold `t`
iff `l >= t`. -/
def levelEnabled (t l : Level) : Bool :=
  decide (t.zapInt ≤ l.zapInt)

/-- internal/remote.go `levelToInt`: the legacy severity → integer mapping
kept for downstream compatibility. -/
def levelToInt : Level → Int
  | .info => 1
  | .warn => 3
  | .error => 4
  | .panic => 5
  | .debug => 6
  | _ => 0

/-- The slice of `zapcore.FieldType` the remote sink inspects: only
string-typed fields are read, every other type is opaque here. -/
inductive FieldType where
  | stringType
  | boolType
  | int64Type
  | otherType
deriving DecidableEq, Repr

/-- `zapcore.Field` restricted to what `remoteCore.Write` looks at:
`Key`, `Type` (as `ftype`) and `String` (as `str`). -/
structure Field where
  key : String
  ftype : FieldType
  str : String
deriving DecidableEq, Repr

/-- Go `time.Time` restricted to the calendar fields that
`Format(time.DateTime)` renders. -/
structure GoTime where
  year : Nat
  month : Nat
  day : Nat
  hour : Nat
  minute : Nat
  second : Nat
deriving DecidableEq, Repr

/-- Two-digit zero padding used by the `time.DateTime` layout. -/
def pad2 (n : Nat) : String :=
  if n < 10 then "0" ++ toString n else toString n

/-- `t.Format(time.DateTime)`: the `"YYYY-MM-DD HH:MM:SS"` rendering. -/
def GoTime.formatDateTime (t : GoTime) : String :=
  toString t.year ++ "-" ++ pad2 t.month ++ "-" ++ pad2 t.day ++ " " ++
    pad2 t.hour ++ ":" ++ pad2 t.minute ++ ":" ++ pad2 t.second

/-- `zapcore.Entry` restricted to what `remoteCore.Write` reads: level,
message, time, and the caller (`none` when `Caller.Defined` is false,
otherwise the already-trimmed `file:line` path). -/
structure Entry where
  level : Level
  message : String
  time : GoTime
  caller : Option String
deriving DecidableEq, Repr

/-- internal/remote.go `remoteLog`: the external envelope schema. -/
structure remoteLog where
  Path : String
  Level : Int
  Content : String
  TraceId : String
  CreatedAt : String
deriving DecidableEq, Repr

/-- A JSON scalar, enough for the envelope's field values. -/
inductive JVal where
  | str (s : String)
  | num (n : Int)
deriving DecidableEq, Repr

/-- A parsed JSON object: ordered key/value pairs. -/
abbrev JObj := List (String × JVal)

/-- The JSON object `json.Marshal(&remoteLog{...})` encodes: keys
`Path, Level, Content, TraceId, CreatedAt` in struct order. -/
def remoteLog.toJObj (r : remoteLog) : JObj :=
  [("Path", JVal.str r.Path),
   ("Level", JVal.num r.Level),
   ("Content", JVal.str r.Content),
   ("TraceId", JVal.str r.TraceId),
   ("CreatedAt", JVal.str r.CreatedAt)]

/-- internal/remote.go `remoteCore`: threshold, callback presence, and the
standing fields attached via `With`. -/
structure remoteCore where
  level : Level
  handle : Bool
  fields : List Field
deriving DecidableEq, Repr

/-- internal/remote.go `NewRemoteCore`. -/
def NewRemoteCore (level : Level) (handle : Bool) : remoteCore :=
  { level := level, handle := handle, fields := [] }

/-- `remoteCore.Enabled`. -/
def remoteCore.Enabled (c : remoteCore) (l : Level) : Bool :=
  levelEnabled c.level l

/-- `remoteCore.With`: unchanged core for an empty field list, otherwise a
copy whose standing fields are `c.fields ++ fields`. -/
def remoteCore.With (c : remoteCore) (fields : List Field) : remoteCore :=
  if fields.isEmpty then c
  else { c with fields := c.fields ++ fields }

/-- The `allFields` merge inside `remoteCore.Write`: call-site fields alone
when no standing fields exist, otherwise a fresh copy of the standing
fields with the call-site fields appended. -/
def remoteCore.allFields (c : remoteCore) (fields : List Field) : List Field :=
  if c.fields.isEmpty then fields else c.fields ++ fields

/-- The trace-id extraction loop inside `remoteCore.Write`: first field whose
key is exactly `trace_id` or `TraceId` and whose type is string; `""` when
none matches (the loop breaks at the first hit). -/
def traceIdScan : List Field → String
  | [] => ""
  | f :: rest =>
    if (f.key == "trace_id" || f.key == "TraceId") && f.ftype == FieldType.stringType
    then f.str
    else traceIdScan rest

/-- The envelope `remoteCore.Write` assembles before JSON-encoding it. -/
def remoteCore.envelope (c : remoteCore) (entry : Entry) (fields : List Field) : remoteLog :=
  { Path := entry.caller.getD ""
  , Level := levelToInt entry.level
  , Content := entry.message
  , TraceId := traceIdScan (c.allFields fields)
  , CreatedAt := entry.time.formatDateTime }

/-- `remoteCore.Write`, parametric in the JSON encoder (`json.Marshal`,
which returns `none` on encoding failure).  The result is the list of
payloads handed to the delivery callback (length 0 or 1) paired with the
returned error, which is always `none`. -/
def remoteCore.WriteWith (enc : remoteLog → Option JObj) (c : remoteCore)
    (entry : Entry) (fields : List Field) : List JObj × Option String :=
  if c.handle = false then ([], none)
  else
    match enc (c.envelope entry fields) with
    | some b => ([b], none)
    | none => ([], none)

/-- `json.Marshal` on a `remoteLog` value: total for this struct. -/
def jsonMarshal (r : remoteLog) : Option JObj :=
  some r.toJObj

/-- internal/remote.go `remoteCore.Write` with the concrete encoder. -/
def remoteCore.Write (c : remoteCore) (entry : Entry) (fields : List Field) :
    List JObj × Option String :=
  remoteCore.WriteWith jsonMarshal c entry fields

/-- Whitespace as Go's `unicode.IsSpace` sees it, restricted to ASCII
(configuration strings are ASCII). -/
def isSpaceChar (c : Char) : Bool :=
  c == ' ' || c == '\t' || c == '\n' || c == '\r' || c == '\x0b' || c == '\x0c'

/-- Drop leading whitespace from a character list. -/
def dropSpaceLeft : List Char → List Char
  | [] => []
  | c :: cs => if isSpaceChar c then dropSpaceLeft cs else c :: cs

/-- Go `strings.TrimSpace`: strip whitespace from both ends. -/
def trimSpace (s : String) : String :=
  ⟨(dropSpaceLeft (dropSpaceLeft s.data).reverse).reverse⟩

/-- ASCII lower-casing of one character (Go `bytes.ToLower` on ASCII). -/
def toLowerChar (c : Char) : Char :=
  if c.isUpper then Char.ofNat (c.toNat + 32) else c

/-- Go `bytes.ToLower` on a string. -/
def strToLower (s : String) : String :=
  ⟨s.data.map toLowerChar⟩

/-- One text alternative of `zapcore.Level.unmarshalText` (the empty string
parses as info, matching zap). -/
def unmarshalLevelText : String → Option Level
  | "debug" => some .debug
  | "DEBUG" => some .debug
  | "info" => some .info
  | "INFO" => some .info
  | "" => some .info
  | "warn" => some .warn
  | "WARN" => some .warn
  | "error" => some .error
  | "ERROR" => some .error
  | "dpanic" => some .dpanic
  | "DPANIC" => some .dpanic
  | "panic" => some .panic
  | "PANIC" => some .panic
  | "fatal" => some .fatal
  | "FATAL" => some .fatal
  | _ => none

/-- `zapcore.ParseLevel`: exact match first, then a lowercased retry;
`none` models the parse error. -/
def ParseLevel (s : String) : Option Level :=
  match unmarshalLevelText s with
  | some l => some l
  | none => unmarshalLevelText (strToLower s)

/-- logger.go `New`, the level computation: default info, overridden when
the whitespace-trimmed `Conf.Level` is non-empty and parses. -/
def effectiveLevel (s : String) : Level :=
  if trimSpace s = "" then Level.info
  else
    match ParseLevel (trimSpace s) with
    | some parsed => parsed
    | none => Level.info

/-- logger.go `Conf`.  The private callback field is modelled by its
presence. -/
structure Conf where
  Console : Bool
  Remote : Bool
  Level : String
  handle : Bool
deriving DecidableEq, Repr

/-- A member of the tee built by `New`: the console core (observationally
inert towards the delivery callback — it writes to stdout) or a remote
core. -/
inductive Core where
  | console (level : Level)
  | remote (rc : remoteCore)
deriving DecidableEq, Repr

/-- Whether a tee member is the remote sink. -/
def Core.isRemote : Core → Bool
  | .console _ => false
  | .remote _ => true

/-- The minimum-severity threshold a core was constructed with. -/
def Core.minLevel : Core → Level
  | .console l => l
  | .remote rc => rc.level

/-- Payloads a core hands to the delivery callback when one record is
emitted through it (zap calls `Write` only on cores whose `Enabled`
accepted the entry's level). -/
def Core.remoteOutputs : Core → Entry → List Field → List JObj
  | .console _, _, _ => []
  | .remote rc, entry, fields =>
    if levelEnabled rc.level entry.level then (rc.Write entry fields).1 else []

/-- The constructed entry point: `zap.NewNop()` or a tee of cores. -/
inductive Logger where
  | nop
  | tee (cores : List Core)
deriving DecidableEq, Repr

/-- The cores behind an entry point (`nop` has none). -/
def Logger.coresOf : Logger → List Core
  | .nop => []
  | .tee cs => cs

/-- Payloads the delivery callback receives when one record is emitted
through the entry point: the tee fans the record out to every core. -/
def Logger.remoteOutputs (lg : Logger) (entry : Entry) (fields : List Field) : List JObj :=
  (lg.coresOf.map (fun c => c.remoteOutputs entry fields)).flatten

/-- logger.go `New`: nil config → nop; otherwise the callback passed at
construction wins over `conf.handle`, a shared atomic level gates every
core, console and remote cores are appended in that order (remote only
when enabled and a callback is present), and an empty core list → nop. -/
def New (conf : Option Conf) (handle : Bool) : Logger :=
  match conf with
  | none => Logger.nop
  | some conf =>
    let effectiveHandle := if handle then handle else conf.handle
    let atomicLevel := effectiveLevel conf.Level
    let cores : List Core :=
      (if conf.Console then [Core.console atomicLevel] else []) ++
        (if conf.Remote && effectiveHandle
         then [Core.remote (NewRemoteCore atomicLevel effectiveHandle)]
         else [])
    if cores.isEmpty then Logger.nop else Logger.tee cores

/-- A byte payload. -/
abbrev Bytes := List UInt8

/-- async.go `AsyncLogger`: the bounded queue (capacity `size`) feeding the
background consumer.  The consumer side is modelled by `RelayStep`. -/
structure AsyncLogger where
  size : Nat
  queue : List Bytes
deriving DecidableEq, Repr

/-- async.go `AsyncLogger.Write`: non-blocking send — enqueue an owned copy
when the queue has room, silently drop otherwise; either way report
`(len(p), nil)`. -/
def AsyncLogger.Write (l : AsyncLogger) (p : Bytes) : AsyncLogger × Nat × Option String :=
  if l.queue.length < l.size then
    ({ l with queue := l.queue ++ [p] }, p.length, none)
  else
    (l, p.length, none)

/-- Interleaving state of the relay: the pending queue, the payloads the
single consumer has already handed to the callback, and (ghost) every
payload that was successfully enqueued, in order. -/
structure RelayState where
  queue : List Bytes
  delivered : List Bytes
  accepted : List Bytes
deriving DecidableEq, Repr

/-- One atomic step of the relay with capacity `cap`: a producer's
successful enqueue, a producer's silent drop on a full queue, or the single
background consumer taking the queue head and invoking the callback with
it.  Delivery is one atomic consumer step, so callback invocations are
serialized by construction. -/
inductive RelayStep (cap : Nat) : RelayState → RelayState → Prop where
  | enqueue (s : RelayState) (p : Bytes) (h : s.queue.length < cap) :
      RelayStep cap s
        { queue := s.queue ++ [p], delivered := s.delivered, accepted := s.accepted ++ [p] }
  | dropFull (s : RelayState) (p : Bytes) (h : cap ≤ s.queue.length) :
      RelayStep cap s s
  | consume (s : RelayState) (p : Bytes) (rest : List Bytes) (h : s.queue = p :: rest) :
      RelayStep cap s
        { queue := rest, delivered := s.delivered ++ [p], accepted := s.accepted }

/-- States reachable from the freshly-constructed relay (empty queue,
nothing delivered). -/
inductive RelayReachable (cap : Nat) : RelayState → Prop where
  | init : RelayReachable cap { queue := [], delivered := [], accepted := [] }
  | step {s t : RelayState} :
      RelayReachable cap s → RelayStep cap s t → RelayReachable cap t

/-- The spec's wording of the trace-id extraction: the first string-typed
field named exactly `trace_id` or `TraceId` in the merged list, else `""`.
Stated with `List.find?` to be compared against the source's scan loop. -/
def specTraceId (fields : List Field) : String :=
  match fields.find?
      (fun f => (f.key == "trace_id" || f.key == "TraceId") && f.ftype == FieldType.stringType) with
  | some f => f.str
  | none => ""

theorem traceIdScan_eq_spec (fs : List Field) : traceIdScan fs = specTraceId fs := by
  induction fs with
  | nil => rfl
  | cons f rest ih =>
    by_cases h : ((f.key == "trace_id" || f.key == "TraceId") && f.ftype == FieldType.stringType) = true
    · simp [traceIdScan, specTraceId, List.find?_cons, h]
    · simp only [Bool.not_eq_true] at h
      simp [traceIdScan, specTraceId, List.find?_cons, h, ih]

theorem allFields_eq_append (c : remoteCore) (fields : List Field) :
    c.allFields fields = c.fields ++ fields := by
  unfold remoteCore.allFields
  by_cases h : c.fields.isEmpty
  · rw [List.isEmpty_iff] at h
    simp [h]
  · simp [h]

theorem lookup_toJObj_Path (r : remoteLog) :
    List.lookup "Path" r.toJObj = some (JVal.str r.Path) := by
  simp [remoteLog.toJObj, List.lookup]

theorem lookup_toJObj_Level (r : remoteLog) :
    List.lookup "Level" r.toJObj = some (JVal.num r.Level) := by
  simp [remoteLog.toJObj, List.lookup]

theorem lookup_toJObj_Content (r : remoteLog) :
    List.lookup "Content" r.toJObj = some (JVal.str r.Content) := by
  simp [remoteLog.toJObj, List.lookup]

theorem lookup_toJObj_TraceId (r : remoteLog) :
    List.lookup "TraceId" r.toJObj = some (JVal.str r.TraceId) := by
  simp [remoteLog.toJObj, List.lookup]

theorem lookup_toJObj_CreatedAt (r : remoteLog) :
    List.lookup "CreatedAt" r.toJObj = some (JVal.str r.CreatedAt) := by
  simp [remoteLog.toJObj, List.lookup]

/-- With a callback present, one `Write` hands exactly the encoded envelope
to the callback and returns no error. -/
theorem Write_eq_of_handle (c : remoteCore) (entry : Entry) (fields : List Field)
    (h : c.handle = true) :
    c.Write entry fields = ([(c.envelope entry fields).toJObj], none) := by
  simp [remoteCore.Write, remoteCore.WriteWith, jsonMarshal, h]

/-- With no callback, `Write` delivers nothing and returns no error. -/
theorem Write_eq_of_no_handle (c : remoteCore) (entry : Entry) (fields : List Field)
    (h : c.handle = false) :
    c.Write entry fields = ([], none) := by
  simp [remoteCore.Write, remoteCore.WriteWith, h]

/-- A fixed timestamp for concrete evaluations. -/
def sampleTime : GoTime :=
  { year := 2024, month := 5, day := 3, hour := 12, minute := 30, second := 9 }

/-- A concrete info-level record with message `"hello"`. -/
def sampleEntry : Entry :=
  { level := .info, message := "hello", time := sampleTime, caller := some "pkg/file.go:42" }

/-- Claim C1: for every record forwarded to the remote delivery callback,
the envelope's `Level` integer is determined solely by the record's
severity via the fixed mapping debug→6, info→1, warn→3, error→4, panic→5,
and any other severity→0. -/
theorem claim1_severity_mapping :
    (∀ (c : remoteCore) (entry : Entry) (fields : List Field) (obj : JObj),
        obj ∈ (c.Write entry fields).1 →
        List.lookup "Level" obj = some (JVal.num (levelToInt entry.level))) ∧
    levelToInt Level.debug = 6 ∧ levelToInt Level.info = 1 ∧
    levelToInt Level.warn = 3 ∧ levelToInt Level.error = 4 ∧
    levelToInt Level.panic = 5 ∧
    ∀ l : Level, l ≠ Level.debug → l ≠ Level.info → l ≠ Level.warn →
      l ≠ Level.error → l ≠ Level.panic → levelToInt l = 0 := by
  refine ⟨?_, rfl, rfl, rfl, rfl, rfl, ?_⟩
  · intro c entry fields obj hmem
    by_cases hh : c.handle = true
    · rw [Write_eq_of_handle c entry fields hh] at hmem
      simp only [List.mem_singleton] at hmem
      subst hmem
      exact lookup_toJObj_Level _
    · rw [Write_eq_of_no_handle c entry fields (by simpa using hh)] at hmem
      simp at hmem
  · intro l h1 h2 h3 h4 h5
    cases l <;> simp_all <;> rfl

/-- Witness for C1 at a concrete core, record and level. -/
theorem claim1_severity_mapping_witness :
    List.lookup "Level" (((NewRemoteCore Level.info true).Write sampleEntry []).1.headD []) =
      some (JVal.num 1) ∧ levelToInt Level.dpanic = 0 := by
  refine ⟨?_, claim1_severity_mapping.2.2.2.2.2.2 Level.dpanic
    (by decide) (by decide) (by decide) (by decide) (by decide)⟩
  exact claim1_severity_mapping.1 (NewRemoteCore Level.info true) sampleEntry []
    (((NewRemoteCore Level.info true).Write sampleEntry []).1.headD []) (by decide)

/-- Claim C4: for every write through the remote sink, the envelope's
`TraceId` equals the value of the first string-typed field named exactly
`trace_id` or `TraceId`, scanning the standing fields first and then the
call-site fields in order, and `""` when no such field exists. -/
theorem claim4_traceid_extraction (c : remoteCore) (entry : Entry)
    (fields : List Field) (obj : JObj) (hmem : obj ∈ (c.Write entry fields).1) :
    List.lookup "TraceId" obj = some (JVal.str (specTraceId (c.fields ++ fields))) := by
  by_cases hh : c.handle = true
  · rw [Write_eq_of_handle c entry fields hh] at hmem
    simp only [List.mem_singleton] at hmem
    subst hmem
    rw [lookup_toJObj_TraceId]
    simp [remoteCore.envelope, traceIdScan_eq_spec, allFields_eq_append]
  · rw [Write_eq_of_no_handle c entry fields (by simpa using hh)] at hmem
    simp at hmem

/-- Witness for C4: a standing `trace_id` field wins over a later call-site
one, and the empty-field case defaults to the empty string. -/
theorem claim4_traceid_extraction_witness :
    List.lookup "TraceId"
        (((remoteCore.mk Level.info true [Field.mk "trace_id" FieldType.stringType "abc123"]).Write
            sampleEntry [Field.mk "TraceId" FieldType.stringType "other"]).1.headD []) =
      some (JVal.str "abc123") ∧
    List.lookup "TraceId" (((NewRemoteCore Level.info true).Write sampleEntry []).1.headD []) =
      some (JVal.str "") := by
  constructor
  · exact claim4_traceid_extraction
      (remoteCore.mk Level.info true [Field.mk "trace_id" FieldType.stringType "abc123"])
      sampleEntry [Field.mk "TraceId" FieldType.stringType "other"] _ (by decide)
  · exact claim4_traceid_extraction (NewRemoteCore Level.info true) sampleEntry [] _ (by decide)

/-- Claim C6: whenever JSON encoding fails inside the remote sink's write
path, the record is dropped — the delivery callback receives nothing and no
error is returned. -/
theorem claim6_encoding_failure_drops (enc : remoteLog → Option JObj)
    (c : remoteCore) (entry : Entry) (fields : List Field)
    (henc : enc (c.envelope entry fields) = none) :
    remoteCore.WriteWith enc c entry fields = ([], none) := by
  unfold remoteCore.WriteWith
  by_cases hh : c.handle = false
  · simp [hh]
  · simp [hh, henc]

/-- Witness for C6 with an always-failing encoder. -/
theorem claim6_encoding_failure_drops_witness :
    remoteCore.WriteWith (fun _ => none) (NewRemoteCore Level.info true) sampleEntry [] =
      ([], none) :=
  claim6_encoding_failure_drops (fun _ => none) (NewRemoteCore Level.info true)
    sampleEntry [] rfl

/-- Claim C7: for a non-empty field list, `With` returns a new handle whose
standing fields are the original's followed by the new fields in order,
leaving the threshold and callback untouched; the original value itself is
unchanged, so sibling handles derived from one original stay independent. -/
theorem claim7_with_appends (c : remoteCore) (fields : List Field) (h : fields ≠ []) :
    (c.With fields).fields = c.fields ++ fields ∧
    (c.With fields).level = c.level ∧
    (c.With fields).handle = c.handle := by
  have hne : fields.isEmpty = false := by
    simpa [List.isEmpty_iff] using h
  unfold remoteCore.With
  simp [hne]

/-- Witness for C7 with two sibling derivations from the same original. -/
theorem claim7_with_appends_witness :
    ((NewRemoteCore Level.info true).With [Field.mk "service" FieldType.stringType "x"]).fields =
        [Field.mk "service" FieldType.stringType "x"] ∧
    ((NewRemoteCore Level.info true).With [Field.mk "env" FieldType.stringType "y"]).fields =
        [Field.mk "env" FieldType.stringType "y"] := by
  constructor
  · exact (claim7_with_appends (NewRemoteCore Level.info true)
      [Field.mk "service" FieldType.stringType "x"] (by decide)).1
  · exact (claim7_with_appends (NewRemoteCore Level.info true)
      [Field.mk "env" FieldType.stringType "y"] (by decide)).1

/-- Claim C2: with `Console = false`, `Remote = true` and a callback
supplied at construction, emitting one record at or above the minimum
severity produces exactly one callback invocation, whose payload parsed as
JSON has the keys `Path`, `Level`, `Content`, `TraceId`, `CreatedAt`, with
`Content` equal to the emitted message. -/
theorem claim2_remote_schema (conf : Conf) (entry : Entry) (fields : List Field)
    (hc : conf.Console = false) (hr : conf.Remote = true)
    (hl : levelEnabled (effectiveLevel conf.Level) entry.level = true) :
    ∃ obj : JObj,
      Logger.remoteOutputs (New (some conf) true) entry fields = [obj] ∧
      List.lookup "Content" obj = some (JVal.str entry.message) ∧
      (List.lookup "Path" obj).isSome = true ∧
      (List.lookup "Level" obj).isSome = true ∧
      (List.lookup "TraceId" obj).isSome = true ∧
      (List.lookup "CreatedAt" obj).isSome = true := by
  refine ⟨((NewRemoteCore (effectiveLevel conf.Level) true).envelope entry fields).toJObj,
    ?_, ?_, ?_, ?_, ?_, ?_⟩
  · simp only [New, hc, hr]
    simp [Logger.remoteOutputs, Logger.coresOf, Core.remoteOutputs, hl, NewRemoteCore,
      remoteCore.Write, remoteCore.WriteWith, jsonMarshal]
  · rw [lookup_toJObj_Content]
    rfl
  · rw [lookup_toJObj_Path]
    rfl
  · rw [lookup_toJObj_Level]
    rfl
  · rw [lookup_toJObj_TraceId]
    rfl
  · rw [lookup_toJObj_CreatedAt]
    rfl

/-- Witness for C2: the remote-only configuration delivers exactly one
schema-shaped payload for an info record with message `"hello"`. -/
theorem claim2_remote_schema_witness :
    ∃ obj : JObj,
      Logger.remoteOutputs (New (some (Conf.mk false true "" false)) true) sampleEntry [] = [obj] ∧
      List.lookup "Content" obj = some (JVal.str sampleEntry.message) ∧
      (List.lookup "Path" obj).isSome = true ∧
      (List.lookup "Level" obj).isSome = true ∧
      (List.lookup "TraceId" obj).isSome = true ∧
      (List.lookup "CreatedAt" obj).isSome = true :=
  claim2_remote_schema (Conf.mk false true "" false) sampleEntry [] rfl rfl (by decide)

/-- Claim C3: with `{Console:false, Remote:false}`, or `Remote:true` but no
callback anywhere, the constructed entry point contains no remote core at
all, and emitting any record delivers nothing to any delivery callback. -/
theorem claim3_noop_safety (conf : Conf) (h : Bool)
    (hcond : (conf.Console = false ∧ conf.Remote = false) ∨
      (conf.Remote = true ∧ h = false ∧ conf.handle = false)) :
    (∀ c ∈ (New (some conf) h).coresOf, c.isRemote = false) ∧
    ∀ (entry : Entry) (fields : List Field),
      (New (some conf) h).remoteOutputs entry fields = [] := by
  rcases hcond with ⟨hc, hr⟩ | ⟨hr, hh, hch⟩
  · simp [New, hc, hr, Logger.coresOf, Logger.remoteOutputs]
  · subst hh
    by_cases hc : conf.Console = true
    · simp [New, hc, hr, hch, Logger.coresOf, Logger.remoteOutputs, Core.isRemote,
        Core.remoteOutputs]
    · simp only [Bool.not_eq_true] at hc
      simp [New, hc, hr, hch, Logger.coresOf, Logger.remoteOutputs]

/-- Witness for C3 in the remote-enabled-but-unwired configuration. -/
theorem claim3_noop_safety_witness :
    (∀ c ∈ (New (some (Conf.mk true true "" false)) false).coresOf, c.isRemote = false) ∧
    ∀ (entry : Entry) (fields : List Field),
      (New (some (Conf.mk true true "" false)) false).remoteOutputs entry fields = [] :=
  claim3_noop_safety (Conf.mk true true "" false) false (Or.inr ⟨rfl, rfl, rfl⟩)

/-- The cores behind `New` on a non-nil config: an optional console core
followed by an optional remote core, all gated by one shared level. -/
theorem coresOf_New (conf : Conf) (h : Bool) :
    (New (some conf) h).coresOf =
      (if conf.Console then [Core.console (effectiveLevel conf.Level)] else []) ++
        (if conf.Remote && (if h then h else conf.handle)
         then [Core.remote (NewRemoteCore (effectiveLevel conf.Level) (if h then h else conf.handle))]
         else []) := by
  simp only [New]
  by_cases hcon : conf.Console = true <;>
    by_cases hrem : (conf.Remote && (if h then h else conf.handle)) = true <;>
      simp [hcon, hrem, Logger.coresOf]

/-- Claim C9: every constructed sink shares one minimum severity; it
defaults to info, the configured string is whitespace-trimmed before
parsing, and an unparsable string falls back to info instead of failing
construction. -/
theorem claim9_level_parsing (conf : Conf) (h : Bool) :
    (∀ c ∈ (New (some conf) h).coresOf, c.minLevel = effectiveLevel conf.Level) ∧
    effectiveLevel "" = Level.info ∧
    (∀ s : String, ParseLevel (trimSpace s) = none → effectiveLevel s = Level.info) ∧
    ∀ (s : String) (l : Level), ParseLevel (trimSpace s) = some l → effectiveLevel s = l := by
  refine ⟨?_, rfl, ?_, ?_⟩
  · intro c hc
    rw [coresOf_New] at hc
    rcases List.mem_append.1 hc with hmem | hmem
    · by_cases hcon : conf.Console = true
      · simp only [hcon, if_true, List.mem_singleton] at hmem
        subst hmem
        rfl
      · simp only [Bool.not_eq_true] at hcon
        simp [hcon] at hmem
    · by_cases hrem : (conf.Remote && (if h then h else conf.handle)) = true
      · simp only [hrem, if_true, List.mem_singleton] at hmem
        subst hmem
        rfl
      · simp only [Bool.not_eq_true] at hrem
        simp [hrem] at hmem
  · intro s hs
    unfold effectiveLevel
    by_cases ht : trimSpace s = ""
    · simp [ht]
    · simp [ht, hs]
  · intro s l hs
    unfold effectiveLevel
    by_cases ht : trimSpace s = ""
    · rw [ht] at hs
      simp only [ParseLevel, unmarshalLevelText, Option.some.injEq] at hs
      simp [ht, hs]
    · simp [ht, hs]

/-- Witness for C9: an unparsable level and a padded parsable one. -/
theorem claim9_level_parsing_witness :
    (Core.console (effectiveLevel "bogus") ∈
        (New (some (Conf.mk true false "bogus" false)) false).coresOf →
      (Core.console (effectiveLevel "bogus")).minLevel = effectiveLevel "bogus") ∧
    effectiveLevel "bogus" = Level.info ∧ effectiveLevel " WARN " = Level.warn := by
  refine ⟨fun hmem => (claim9_level_parsing (Conf.mk true false "bogus" false) false).1 _ hmem,
    (claim9_level_parsing (Conf.mk true false "bogus" false) false).2.2.1 "bogus" (by decide),
    (claim9_level_parsing (Conf.mk true false "bogus" false) false).2.2.2 " WARN " Level.warn
      (by decide)⟩

/-- Claim C10: a nil configuration yields the nop entry point: construction
does not fail, and every emit through it delivers nothing to any delivery
callback (in this total model, emit always completes). -/
theorem claim10_nil_conf_nop (h : Bool) :
    New none h = Logger.nop ∧
    ∀ (entry : Entry) (fields : List Field),
      Logger.remoteOutputs Logger.nop entry fields = [] := by
  exact ⟨rfl, fun entry fields => rfl⟩

/-- Claim C5: for every payload and queue state, the relay's write reports
the full input length and no error; when the queue is at capacity the
payload is dropped with the state unchanged, so the drop is invisible to
the caller. -/
theorem claim5_async_write_infallible (l : AsyncLogger) (p : Bytes) :
    (l.Write p).2.1 = p.length ∧
    (l.Write p).2.2 = none ∧
    (l.size ≤ l.queue.length → (l.Write p).1 = l) := by
  unfold AsyncLogger.Write
  by_cases hfull : l.queue.length < l.size
  · simp [hfull]
  · simp [hfull]

/-- Witness for C5 on a relay whose queue is at capacity. -/
theorem claim5_async_write_infallible_witness :
    ((AsyncLogger.mk 1 [[0x61]]).Write [0x62, 0x63]).2.1 = 2 ∧
    ((AsyncLogger.mk 1 [[0x61]]).Write [0x62, 0x63]).2.2 = none ∧
    ((AsyncLogger.mk 1 [[0x61]]).Write [0x62, 0x63]).1 = AsyncLogger.mk 1 [[0x61]] := by
  refine ⟨(claim5_async_write_infallible (AsyncLogger.mk 1 [[0x61]]) [0x62, 0x63]).1,
    (claim5_async_write_infallible (AsyncLogger.mk 1 [[0x61]]) [0x62, 0x63]).2.1,
    (claim5_async_write_infallible (AsyncLogger.mk 1 [[0x61]]) [0x62, 0x63]).2.2 (by decide)⟩

/-- Claim C8: in every reachable relay state, the payloads already handed
to the callback followed by the still-queued ones are exactly the
successfully enqueued payloads in order, so the single consumer delivers in
FIFO order: the delivered sequence is always a prefix of the accepted
sequence. -/
theorem claim8_fifo_delivery (cap : Nat) (s : RelayState)
    (h : RelayReachable cap s) :
    s.delivered ++ s.queue = s.accepted ∧ List.IsPrefix s.delivered s.accepted := by
  have hinv : s.delivered ++ s.queue = s.accepted := by
    induction h with
    | init => rfl
    | step hreach hstep ih =>
      cases hstep with
      | enqueue p hlt =>
        simp only
        rw [← List.append_assoc, ih]
      | dropFull p hge => exact ih
      | consume p rest hq =>
        simp only
        rw [List.append_assoc, List.singleton_append, ← hq, ih]
  exact ⟨hinv, ⟨s.queue, hinv⟩⟩

/-- Witness for C8 after an enqueue followed by a consume step. -/
theorem claim8_fifo_delivery_witness :
    RelayState.delivered ⟨[], [[0x61]], [[0x61]]⟩ ++ RelayState.queue ⟨[], [[0x61]], [[0x61]]⟩ =
        RelayState.accepted ⟨[], [[0x61]], [[0x61]]⟩ ∧
      List.IsPrefix (RelayState.delivered ⟨[], [[0x61]], [[0x61]]⟩)
        (RelayState.accepted ⟨[], [[0x61]], [[0x61]]⟩) :=
  claim8_fifo_delivery 1 ⟨[], [[0x61]], [[0x61]]⟩
    (RelayReachable.step
      (RelayReachable.step RelayReachable.init
        (RelayStep.enqueue ⟨[], [], []⟩ [0x61] (by decide)))
      (RelayStep.consume ⟨[[0x61]], [], [[0x61]]⟩ [0x61] [] rfl))

end GoLogger
